import Mathlib

/-!
Shallow embedding of `waysaver` (src/main.rs), a Wayland screensaver:
an input-activity state machine (`InputState`), content-URL resolution
(`resolve_content_url`), the per-window fade-in stepper, the watchdog
timer closure, window-fleet activation over the monitor list, and the
`close` teardown function.  Pointer coordinates and distances are
modelled as real numbers (the source uses `f64`); opacities in the fade
stepper are modelled as rationals so the stepper stays decidable.
-/

namespace Waysaver

/-- `const MOUSE_THRESHOLD: f64 = 10.0;` -/
def MOUSE_THRESHOLD : ℝ := 10.0

/-- `struct InputState { should_close, last_mouse_pos, total_movement }` -/
structure InputState where
  should_close : Bool
  last_mouse_pos : Option (ℝ × ℝ)
  total_movement : ℝ

namespace InputState

/-- `InputState::new()` -/
def new : InputState :=
  { should_close := false, last_mouse_pos := none, total_movement := 0.0 }

/-- `InputState::handle_mouse_movement(&mut self, x, y) -> bool`,
returned as (updated state, returned bool). -/
noncomputable def handle_mouse_movement (s : InputState) (x y : ℝ) :
    InputState × Bool :=
  match s.last_mouse_pos with
  | some (last_x, last_y) =>
      let dx : ℝ := x - last_x
      let dy : ℝ := y - last_y
      let distance : ℝ := Real.sqrt (dx * dx + dy * dy)
      let s := { s with total_movement := s.total_movement + distance }
      if s.total_movement > MOUSE_THRESHOLD then
        ({ s with should_close := true }, true)
      else
        ({ s with last_mouse_pos := some (x, y) }, false)
  | none =>
      ({ s with last_mouse_pos := some (x, y) }, false)

/-- `InputState::handle_key_input(&mut self) -> bool`. -/
def handle_key_input (s : InputState) : InputState × Bool :=
  ({ s with should_close := true }, true)

/-- `InputState::should_close(&self) -> bool` (the getter). -/
def should_close_fn (s : InputState) : Bool :=
  s.should_close

end InputState

/-- One externally triggered operation on the shared `InputState`:
a pointer-motion callback, a key callback (press or release both call
`handle_key_input`), or a read through the `should_close` getter. -/
inductive Event where
  | mouse (x y : ℝ) : Event
  | key : Event
  | query : Event

/-- The state update performed by one event's callback body. -/
noncomputable def step (s : InputState) : Event → InputState
  | .mouse x y => (s.handle_mouse_movement x y).1
  | .key => (s.handle_key_input).1
  | .query => s

/-- Run a sequence of events against the shared state. -/
noncomputable def runEvents (s : InputState) : List Event → InputState
  | [] => s
  | e :: es => runEvents (step s e) es

/-- The trace of states visited while running a sequence of events
(initial state included). -/
noncomputable def statesFrom (s : InputState) : List Event → List InputState
  | [] => [s]
  | e :: es => s :: statesFrom (step s e) es

/-- Number of `false → true` transitions between adjacent entries. -/
def riseCount : List Bool → ℕ
  | [] => 0
  | [_] => 0
  | a :: b :: rest =>
      (if a = false ∧ b = true then 1 else 0) + riseCount (b :: rest)

/-- `glib::Propagation` as returned by the key-pressed handler. -/
inductive Propagation where
  | stop : Propagation
  | proceed : Propagation

/-- Body of the `connect_key_pressed` closure: lock the shared state,
call `handle_key_input`, return `Propagation::Stop`. -/
def on_key_pressed (s : InputState) : InputState × Propagation :=
  ((s.handle_key_input).1, .stop)

/-- Body of the `connect_key_released` closure: lock the shared state,
call `handle_key_input`. -/
def on_key_released (s : InputState) : InputState :=
  (s.handle_key_input).1

/-- Euclidean distance between two points, as computed in
`handle_mouse_movement`. -/
noncomputable def edist (p q : ℝ × ℝ) : ℝ :=
  Real.sqrt ((q.1 - p.1) * (q.1 - p.1) + (q.2 - p.2) * (q.2 - p.2))

/-- Feed a list of pointer positions through `handle_mouse_movement`,
recording the final state and the per-call return values in order. -/
noncomputable def runMovesOut (s : InputState) :
    List (ℝ × ℝ) → InputState × List Bool
  | [] => (s, [])
  | p :: ps =>
      let r := s.handle_mouse_movement p.1 p.2
      let rest := runMovesOut r.1 ps
      (rest.1, r.2 :: rest.2)

/-- The state after feeding a list of pointer positions. -/
noncomputable def runMoves (s : InputState) (ps : List (ℝ × ℝ)) :
    InputState :=
  (runMovesOut s ps).1

/-- Sum of pairwise Euclidean distances between consecutive points. -/
noncomputable def pathLength : List (ℝ × ℝ) → ℝ
  | [] => 0
  | [_] => 0
  | p :: q :: rest => edist p q + pathLength (q :: rest)

/-- Sum of distances of each point from one fixed (stale) point. -/
noncomputable def staleSum (p : ℝ × ℝ) (ps : List (ℝ × ℝ)) : ℝ :=
  (ps.map (edist p)).sum

/-- Rust's `str::starts_with`, on the underlying character sequences. -/
def starts_with (s p : String) : Bool :=
  p.data.isPrefixOf s.data

/-- `fn resolve_content_url(content: &str) -> Result<String>`,
parametrized by the ambient filesystem: `path_exists` models
`Path::exists` and `canonicalize` models `std::fs::canonicalize`, with
`none` standing for an `Err` result. -/
def resolve_content_url (path_exists : String → Bool)
    (canonicalize : String → Option String) (content : String) :
    Except String String :=
  if starts_with content "http://" || starts_with content "https://" then
    Except.ok content
  else if starts_with content "file://" then
    Except.ok content
  else if ! path_exists content then
    Except.error ("File does not exist: " ++ content)
  else
    match canonicalize content with
    | none => Except.error ("Failed to resolve file path: " ++ content)
    | some p => Except.ok ("file://" ++ p)

/-- `let fade_duration_ms: i32 = 200;` -/
def fade_duration_ms : ℚ := 200

/-- `let frame_time_ms: u64 = 16;` -/
def frame_time_ms : ℚ := 16

/-- `let opacity_step: f64 = 1.0 / (fade_duration_ms / frame_time_ms);` -/
def opacity_step : ℚ := 1 / (fade_duration_ms / frame_time_ms)

/-- One tick of the 16 ms fade closure: increment the captured `opacity`
by `opacity_step`; once it reaches 1.0, clamp it to 1.0, set the window
opacity and stop (`ControlFlow::Break`, returned as `false`); otherwise
set the incremented opacity and continue (`Continue`, `true`).  The
first component is both the internal opacity and the value passed to
`set_opacity`. -/
def fade_tick (o : ℚ) : ℚ × Bool :=
  let o2 := o + opacity_step
  if o2 ≥ 1 then (1, false) else (o2, true)

/-- Internal fade opacity after `n` ticks (`0.0` before the first). -/
def fade_opacity : ℕ → ℚ
  | 0 => 0
  | n + 1 => (fade_tick (fade_opacity n)).1

/-- Abstract view of an `ApplicationWindow` as the watchdog and teardown
code observe it: an identifier plus the value `is_active()` currently
reports. -/
structure AppWindow where
  id : ℕ
  is_active : Bool
deriving DecidableEq

/-- Observable toolkit calls issued by the watchdog tick and `close`. -/
inductive GtkCall where
  | printClosing : GtkCall
  | closeWindow (id : ℕ) : GtkCall
  | appQuit : GtkCall
  | present (id : ℕ) : GtkCall
  | grabFocus (id : ℕ) : GtkCall
deriving DecidableEq

/-- `glib::ControlFlow` as returned by a recurring timer closure. -/
inductive ControlFlow where
  | Continue : ControlFlow
  | Break : ControlFlow
deriving DecidableEq

/-- `fn close(windows, app)`: locks the window list, calls
`window.close()` on every window in order, then `app.quit()`.  Returns
the toolkit calls issued and the window list as the function leaves it
(the code never clears the vector). -/
def close (windows : List AppWindow) : List GtkCall × List AppWindow :=
  ((windows.map fun w => GtkCall.closeWindow w.id) ++ [GtkCall.appQuit],
    windows)

/-- One tick of the 50 ms watchdog closure: if the shared state reports
`should_close`, print, call `close`, and return `Break`; otherwise
re-present and re-focus every window whose `is_active()` is false, and
return `Continue`. -/
def watchdog_tick (st : InputState) (windows : List AppWindow) :
    List GtkCall × ControlFlow :=
  if st.should_close then
    (GtkCall.printClosing :: (close windows).1, ControlFlow.Break)
  else
    ((windows.filter fun w => !w.is_active).flatMap
      (fun w => [GtkCall.present w.id, GtkCall.grabFocus w.id]),
      ControlFlow.Continue)

/-- The recurring 50 ms timer: run ticks (up to `fuel` of them),
stopping as soon as a tick returns `Break`; the tick itself mutates
neither the shared state nor the window list.  Returns the per-tick
call lists. -/
def watchdog_run (st : InputState) (windows : List AppWindow) :
    ℕ → List (List GtkCall)
  | 0 => []
  | fuel + 1 =>
      match watchdog_tick st windows with
      | (calls, ControlFlow.Break) => [calls]
      | (calls, ControlFlow.Continue) =>
          calls :: watchdog_run st windows fuel

/-- One entry of the display's monitor `ListModel` as the activation
loop observes it: `item(i)` may return nothing, and a returned object
may fail `downcast::<Monitor>()`. -/
inductive MonitorItem where
  | absent : MonitorItem
  | notMonitor : MonitorItem
  | monitor (id : ℕ) : MonitorItem
deriving DecidableEq

/-- The `connect_activate` monitor loop: for each item that is present
and downcasts to a `Monitor`, one window is configured and pushed onto
`window_list`, in enumeration order; a failed downcast logs
"Failed to downcast monitor object" and the loop continues.  Returns
(window list as monitor ids, log lines). -/
def activate (items : List MonitorItem) : List ℕ × List String :=
  match items with
  | [] => ([], [])
  | MonitorItem.absent :: rest => activate rest
  | MonitorItem.notMonitor :: rest =>
      let r := activate rest
      (r.1, "Failed to downcast monitor object" :: r.2)
  | MonitorItem.monitor id :: rest =>
      let r := activate rest
      (id :: r.1, r.2)

theorem step_latch (s : InputState) (e : Event) (h : s.should_close = true) :
    (step s e).should_close = true := by
  cases e with
  | mouse x y =>
      simp only [step, InputState.handle_mouse_movement]
      rcases s.last_mouse_pos with _ | ⟨lx, ly⟩
      · simpa using h
      · dsimp only
        split
        · rfl
        · simpa using h
  | key => rfl
  | query => exact h

theorem runEvents_latch (s : InputState) (es : List Event)
    (h : s.should_close = true) : (runEvents s es).should_close = true := by
  induction es generalizing s with
  | nil => exact h
  | cons e es ih => exact ih (step s e) (step_latch s e h)

theorem statesFrom_cons_head (s : InputState) (es : List Event) :
    ∃ rest, statesFrom s es = s :: rest := by
  cases es <;> exact ⟨_, rfl⟩

theorem statesFrom_all_true (s : InputState) (es : List Event)
    (h : s.should_close = true) :
    ∀ t ∈ statesFrom s es, t.should_close = true := by
  induction es generalizing s with
  | nil =>
      intro t ht
      simp only [statesFrom, List.mem_singleton] at ht
      simpa [ht] using h
  | cons e es ih =>
      intro t ht
      simp only [statesFrom, List.mem_cons] at ht
      rcases ht with rfl | ht
      · exact h
      · exact ih (step s e) (step_latch s e h) t ht

theorem riseCount_of_all_true :
    ∀ l : List Bool, (∀ b ∈ l, b = true) → riseCount l = 0
  | [], _ => rfl
  | [_], _ => rfl
  | a :: b :: rest, h => by
      have ha : a = true := h a (by simp)
      have hrec : riseCount (b :: rest) = 0 :=
        riseCount_of_all_true (b :: rest)
          (fun x hx => h x (List.mem_cons_of_mem _ hx))
      simp [riseCount, ha, hrec]

theorem riseCount_statesFrom_le_one (s : InputState) (es : List Event) :
    riseCount ((statesFrom s es).map (·.should_close)) ≤ 1 := by
  induction es generalizing s with
  | nil => simp [statesFrom, riseCount]
  | cons e es ih =>
      obtain ⟨rest, hrest⟩ := statesFrom_cons_head (step s e) es
      cases h : s.should_close with
      | true =>
          have hall : ∀ b ∈ (statesFrom s (e :: es)).map (·.should_close),
              b = true := by
            intro b hb
            simp only [List.mem_map] at hb
            obtain ⟨t, ht, rfl⟩ := hb
            exact statesFrom_all_true s (e :: es) h t ht
          simp [riseCount_of_all_true _ hall]
      | false =>
          have hshape : (statesFrom s (e :: es)).map (·.should_close) =
              s.should_close :: (step s e).should_close ::
                rest.map (·.should_close) := by
            simp [statesFrom, hrest]
          cases h2 : (step s e).should_close with
          | true =>
              have hall : ∀ b ∈ (statesFrom (step s e) es).map
                  (·.should_close), b = true := by
                intro b hb
                simp only [List.mem_map] at hb
                obtain ⟨t, ht, rfl⟩ := hb
                exact statesFrom_all_true (step s e) es h2 t ht
              have h0 : riseCount ((statesFrom (step s e) es).map
                  (·.should_close)) = 0 := riseCount_of_all_true _ hall
              rw [hrest] at h0
              simp only [List.map_cons] at h0
              rw [h2] at h0
              rw [hshape, riseCount, h, h2, h0]
              simp
          | false =>
              have hrec := ih (step s e)
              rw [hrest] at hrec
              simp only [List.map_cons] at hrec
              rw [h2] at hrec
              rw [hshape, riseCount, h, h2]
              simpa using hrec

theorem sqrt_of_sq (a b : ℝ) (h : 0 ≤ a) (hb : b = a * a) :
    Real.sqrt b = a := by
  rw [hb, Real.sqrt_mul_self h]

theorem hmm_none (s : InputState) (x y : ℝ) (h : s.last_mouse_pos = none) :
    s.handle_mouse_movement x y =
      ({ s with last_mouse_pos := some (x, y) }, false) := by
  simp [InputState.handle_mouse_movement, h]

theorem hmm_cross (s : InputState) (x y lx ly : ℝ)
    (h : s.last_mouse_pos = some (lx, ly))
    (hc : s.total_movement + edist (lx, ly) (x, y) > MOUSE_THRESHOLD) :
    s.handle_mouse_movement x y =
      ({ s with
          should_close := true,
          total_movement := s.total_movement + edist (lx, ly) (x, y) },
        true) := by
  simp only [edist] at hc
  simp [InputState.handle_mouse_movement, h, edist, hc]

theorem hmm_no_cross (s : InputState) (x y lx ly : ℝ)
    (h : s.last_mouse_pos = some (lx, ly))
    (hc : ¬ s.total_movement + edist (lx, ly) (x, y) > MOUSE_THRESHOLD) :
    s.handle_mouse_movement x y =
      ({ s with
          last_mouse_pos := some (x, y),
          total_movement := s.total_movement + edist (lx, ly) (x, y) },
        false) := by
  simp only [edist] at hc
  simp [InputState.handle_mouse_movement, h, edist, hc]

theorem edist_nonneg (p q : ℝ × ℝ) : 0 ≤ edist p q :=
  Real.sqrt_nonneg _

/-- A single mouse call never decreases `total_movement`. -/
theorem hmm_total_mono (s : InputState) (x y : ℝ) :
    s.total_movement ≤ (s.handle_mouse_movement x y).1.total_movement := by
  rcases h : s.last_mouse_pos with _ | ⟨lx, ly⟩
  · rw [hmm_none s x y h]
  · by_cases hc : s.total_movement + edist (lx, ly) (x, y) > MOUSE_THRESHOLD
    · rw [hmm_cross s x y lx ly h hc]
      have := edist_nonneg (lx, ly) (x, y)
      dsimp only
      linarith
    · rw [hmm_no_cross s x y lx ly h hc]
      have := edist_nonneg (lx, ly) (x, y)
      dsimp only
      linarith

theorem runMoves_total_mono (ps : List (ℝ × ℝ)) :
    ∀ s : InputState, s.total_movement ≤ (runMoves s ps).total_movement := by
  induction ps with
  | nil => intro s; exact le_refl _
  | cons p ps ih =>
      intro s
      exact le_trans (hmm_total_mono s p.1 p.2)
        (ih (s.handle_mouse_movement p.1 p.2).1)

/-- A mouse call never clears the latch. -/
theorem hmm_latch (s : InputState) (x y : ℝ) (h : s.should_close = true) :
    (s.handle_mouse_movement x y).1.should_close = true :=
  step_latch s (.mouse x y) h

theorem runMoves_latch (ps : List (ℝ × ℝ)) :
    ∀ s : InputState, s.should_close = true →
      (runMoves s ps).should_close = true := by
  induction ps with
  | nil => intro s h; exact h
  | cons p ps ih =>
      intro s h
      exact ih (s.handle_mouse_movement p.1 p.2).1 (hmm_latch s p.1 p.2 h)

/-- While no dismissal occurs, the run from a positioned state adds
exactly the path length of the visited points. -/
theorem runMoves_pathLength (ps : List (ℝ × ℝ)) :
    ∀ (s : InputState) (p : ℝ × ℝ), s.last_mouse_pos = some p →
      (runMoves s ps).should_close = false →
      (runMoves s ps).total_movement =
        s.total_movement + pathLength (p :: ps) := by
  induction ps with
  | nil =>
      intro s p _ _
      simp [runMoves, runMovesOut, pathLength]
  | cons q qs ih =>
      intro s p hp hnc
      by_cases hc : s.total_movement + edist p (q.1, q.2) > MOUSE_THRESHOLD
      · exfalso
        have h1 : (s.handle_mouse_movement q.1 q.2).1.should_close = true := by
          rw [hmm_cross s q.1 q.2 p.1 p.2 (by simp [hp]) (by simpa using hc)]
        have h2 := runMoves_latch qs (s.handle_mouse_movement q.1 q.2).1 h1
        have h3 : runMoves s (q :: qs) =
            runMoves (s.handle_mouse_movement q.1 q.2).1 qs := by
          simp [runMoves, runMovesOut]
        rw [h3, h2] at hnc
        simp at hnc
      · have hstep := hmm_no_cross s q.1 q.2 p.1 p.2
          (by simp [hp]) (by simpa using hc)
        have hrm : runMoves s (q :: qs) =
            runMoves (s.handle_mouse_movement q.1 q.2).1 qs := by
          simp [runMoves, runMovesOut]
        rw [hrm] at hnc ⊢
        rw [hstep] at hnc ⊢
        have hih := ih { s with
            last_mouse_pos := some (q.1, q.2),
            total_movement := s.total_movement + edist (p.1, p.2) (q.1, q.2) }
          (q.1, q.2) rfl hnc
        rw [hih]
        simp only [Prod.mk.eta, pathLength]
        ring

theorem edist_eval (px py qx qy d : ℝ) (hd : 0 ≤ d)
    (h : (qx - px) * (qx - px) + (qy - py) * (qy - py) = d * d) :
    edist (px, py) (qx, qy) = d := by
  have he : edist (px, py) (qx, qy) =
      Real.sqrt ((qx - px) * (qx - px) + (qy - py) * (qy - py)) := rfl
  rw [he, h, Real.sqrt_mul_self hd]

theorem runMovesOut_nil (s : InputState) : runMovesOut s [] = (s, []) := rfl

theorem runMovesOut_cons_of (s s' : InputState) (b : Bool) (p : ℝ × ℝ)
    (ps : List (ℝ × ℝ)) (h : s.handle_mouse_movement p.1 p.2 = (s', b)) :
    runMovesOut s (p :: ps) =
      ((runMovesOut s' ps).1, b :: (runMovesOut s' ps).2) := by
  simp [runMovesOut, h]

theorem staleSum_nil (p : ℝ × ℝ) : staleSum p [] = 0 := rfl

theorem staleSum_cons (p q : ℝ × ℝ) (qs : List (ℝ × ℝ)) :
    staleSum p (q :: qs) = edist p q + staleSum p qs := by
  simp [staleSum]

/-- Evaluation of the run (0,0) → (5,0) → (11,0) from a fresh state. -/
theorem run_example1 :
    runMovesOut InputState.new [((0 : ℝ), (0 : ℝ)), (5, 0), (11, 0)] =
      (InputState.mk true (some (5, 0)) 11, [false, false, true]) := by
  have e1 : edist ((0 : ℝ), (0 : ℝ)) (5, 0) = 5 :=
    edist_eval 0 0 5 0 5 (by norm_num) (by norm_num)
  have e2 : edist ((5 : ℝ), (0 : ℝ)) (11, 0) = 6 :=
    edist_eval 5 0 11 0 6 (by norm_num) (by norm_num)
  have h1 : InputState.new.handle_mouse_movement 0 0 =
      (InputState.mk false (some (0, 0)) 0, false) := by
    rw [hmm_none InputState.new 0 0 rfl]
    norm_num [InputState.new]
  have h2 : (InputState.mk false (some (0, 0)) 0).handle_mouse_movement 5 0 =
      (InputState.mk false (some (5, 0)) 5, false) := by
    rw [hmm_no_cross _ 5 0 0 0 rfl (by rw [e1]; norm_num [MOUSE_THRESHOLD])]
    rw [e1]
    norm_num
  have h3 : (InputState.mk false (some (5, 0)) 5).handle_mouse_movement 11 0 =
      (InputState.mk true (some (5, 0)) 11, true) := by
    rw [hmm_cross _ 11 0 5 0 rfl (by rw [e2]; norm_num [MOUSE_THRESHOLD])]
    rw [e2]
    norm_num
  rw [runMovesOut_cons_of _ _ _ _ _ h1, runMovesOut_cons_of _ _ _ _ _ h2,
    runMovesOut_cons_of _ _ _ _ _ h3, runMovesOut_nil]

/-- Evaluation of the run (0,0) → (3,4) from a fresh state. -/
theorem run_example2 :
    runMovesOut InputState.new [((0 : ℝ), (0 : ℝ)), (3, 4)] =
      (InputState.mk false (some (3, 4)) 5, [false, false]) := by
  have e1 : edist ((0 : ℝ), (0 : ℝ)) (3, 4) = 5 :=
    edist_eval 0 0 3 4 5 (by norm_num) (by norm_num)
  have h1 : InputState.new.handle_mouse_movement 0 0 =
      (InputState.mk false (some (0, 0)) 0, false) := by
    rw [hmm_none InputState.new 0 0 rfl]
    norm_num [InputState.new]
  have h2 : (InputState.mk false (some (0, 0)) 0).handle_mouse_movement 3 4 =
      (InputState.mk false (some (3, 4)) 5, false) := by
    rw [hmm_no_cross _ 3 4 0 0 rfl (by rw [e1]; norm_num [MOUSE_THRESHOLD])]
    rw [e1]
    norm_num
  rw [runMovesOut_cons_of _ _ _ _ _ h1, runMovesOut_cons_of _ _ _ _ _ h2,
    runMovesOut_nil]

/-- Evaluation of the run (0,0) → (20,0) → (20,0): the second call crosses
the threshold, so the third measures from the stale position (0,0). -/
theorem run_example3 :
    runMovesOut InputState.new [((0 : ℝ), (0 : ℝ)), (20, 0), (20, 0)] =
      (InputState.mk true (some (0, 0)) 40, [false, true, true]) := by
  have e1 : edist ((0 : ℝ), (0 : ℝ)) (20, 0) = 20 :=
    edist_eval 0 0 20 0 20 (by norm_num) (by norm_num)
  have h1 : InputState.new.handle_mouse_movement 0 0 =
      (InputState.mk false (some (0, 0)) 0, false) := by
    rw [hmm_none InputState.new 0 0 rfl]
    norm_num [InputState.new]
  have h2 : (InputState.mk false (some (0, 0)) 0).handle_mouse_movement 20 0 =
      (InputState.mk true (some (0, 0)) 20, true) := by
    rw [hmm_cross _ 20 0 0 0 rfl (by rw [e1]; norm_num [MOUSE_THRESHOLD])]
    rw [e1]
    norm_num
  have h3 : (InputState.mk true (some (0, 0)) 20).handle_mouse_movement 20 0 =
      (InputState.mk true (some (0, 0)) 40, true) := by
    rw [hmm_cross _ 20 0 0 0 rfl (by rw [e1]; norm_num [MOUSE_THRESHOLD])]
    rw [e1]
    norm_num
  rw [runMovesOut_cons_of _ _ _ _ _ h1, runMovesOut_cons_of _ _ _ _ _ h2,
    runMovesOut_cons_of _ _ _ _ _ h3, runMovesOut_nil]

/-- C1: `handle_mouse_movement`: with no prior position it stores `(x,y)`
and returns false; with a prior position it adds the Euclidean distance to
`total_movement`; if the updated total exceeds 10.0 it sets
`should_close := true`, returns true and leaves the stored position
unchanged, otherwise it updates the stored position and returns false. -/
theorem handle_mouse_movement_contract (s : InputState) (x y : ℝ) :
    (s.last_mouse_pos = none →
      s.handle_mouse_movement x y =
        ({ s with last_mouse_pos := some (x, y) }, false)) ∧
    (∀ lx ly, s.last_mouse_pos = some (lx, ly) →
      (s.total_movement +
          Real.sqrt ((x - lx) * (x - lx) + (y - ly) * (y - ly)) >
          MOUSE_THRESHOLD →
        s.handle_mouse_movement x y =
          ({ s with
              should_close := true,
              total_movement := s.total_movement +
                Real.sqrt ((x - lx) * (x - lx) + (y - ly) * (y - ly)) },
            true)) ∧
      (¬ s.total_movement +
          Real.sqrt ((x - lx) * (x - lx) + (y - ly) * (y - ly)) >
          MOUSE_THRESHOLD →
        s.handle_mouse_movement x y =
          ({ s with
              last_mouse_pos := some (x, y),
              total_movement := s.total_movement +
                Real.sqrt ((x - lx) * (x - lx) + (y - ly) * (y - ly)) },
            false))) := by
  refine ⟨fun h => ?_, fun lx ly h => ⟨fun hc => ?_, fun hc => ?_⟩⟩
  · simp [InputState.handle_mouse_movement, h]
  · simp [InputState.handle_mouse_movement, h, hc]
  · simp [InputState.handle_mouse_movement, h, hc]

/-- Witness for C1: a fresh state records (1,2); from (0,0) a move to
(11,0) crosses the threshold (distance 11 > 10) and latches without
updating the position; from (0,0) a move to (3,4) accumulates 5 and
updates the position. -/
theorem handle_mouse_movement_contract_witness :
    InputState.new.handle_mouse_movement 1 2 =
      ({ InputState.new with last_mouse_pos := some (1, 2) }, false) ∧
    (InputState.mk false (some (0, 0)) 0).handle_mouse_movement 11 0 =
      ({ should_close := true, last_mouse_pos := some (0, 0),
         total_movement := 0 +
           Real.sqrt ((11 - 0) * (11 - 0) + (0 - 0) * (0 - 0)) }, true) ∧
    (InputState.mk false (some (0, 0)) 0).handle_mouse_movement 3 4 =
      ({ should_close := false, last_mouse_pos := some (3, 4),
         total_movement := 0 +
           Real.sqrt ((3 - 0) * (3 - 0) + (4 - 0) * (4 - 0)) }, false) := by
  have h11 : Real.sqrt (((11 : ℝ) - 0) * ((11 : ℝ) - 0) +
      ((0 : ℝ) - 0) * ((0 : ℝ) - 0)) = 11 :=
    sqrt_of_sq 11 _ (by norm_num) (by norm_num)
  have h5 : Real.sqrt (((3 : ℝ) - 0) * ((3 : ℝ) - 0) +
      ((4 : ℝ) - 0) * ((4 : ℝ) - 0)) = 5 :=
    sqrt_of_sq 5 _ (by norm_num) (by norm_num)
  refine ⟨(handle_mouse_movement_contract InputState.new 1 2).1 rfl, ?_, ?_⟩
  · exact ((handle_mouse_movement_contract
      (InputState.mk false (some (0, 0)) 0) 11 0).2 0 0 rfl).1
      (by rw [h11]; norm_num [MOUSE_THRESHOLD])
  · exact ((handle_mouse_movement_contract
      (InputState.mk false (some (0, 0)) 0) 3 4).2 0 0 rfl).2
      (by rw [h5]; norm_num [MOUSE_THRESHOLD])

/-- C2: `should_close` is a one-way latch: under every sequence of
operations (mouse motion, key input, getter reads) it never goes from
true back to false, and in the trace of states it rises from false to
true at most once. -/
theorem should_close_latch (s : InputState) (es : List Event) :
    (s.should_close = true → (runEvents s es).should_close = true) ∧
    riseCount ((statesFrom s es).map (·.should_close)) ≤ 1 :=
  ⟨runEvents_latch s es, riseCount_statesFrom_le_one s es⟩

/-- Witness for C2 at a concrete dismissed state and event list. -/
theorem should_close_latch_witness :
    (runEvents (InputState.mk true none 0)
      [Event.key, Event.query]).should_close = true ∧
    riseCount ((statesFrom (InputState.mk true none 0)
      [Event.key, Event.query]).map (·.should_close)) ≤ 1 :=
  ⟨(should_close_latch (InputState.mk true none 0)
      [Event.key, Event.query]).1 rfl,
   (should_close_latch (InputState.mk true none 0)
      [Event.key, Event.query]).2⟩

/-- C4: `handle_key_input` unconditionally latches `should_close` and
returns true, for any prior state; the key-pressed and key-released
closures both invoke it and have the same effect on the shared state. -/
theorem handle_key_input_contract (s : InputState) :
    s.handle_key_input = ({ s with should_close := true }, true) ∧
    (on_key_pressed s).1 = (s.handle_key_input).1 ∧
    on_key_released s = (s.handle_key_input).1 ∧
    (s.handle_key_input).1.should_close = true ∧
    (s.handle_key_input).2 = true :=
  ⟨rfl, rfl, rfl, rfl, rfl⟩

/-- C3 counterexample: after dismissal the stored position goes stale, so
for the move sequence (0,0), (20,0), (20,0) the accumulated total is 40
while the sum of consecutive pairwise distances is 20 — the claimed
equality fails. -/
theorem accumulated_distance_counterexample :
    ¬ (runMoves InputState.new
        [((0 : ℝ), (0 : ℝ)), (20, 0), (20, 0)]).total_movement =
      pathLength [((0 : ℝ), (0 : ℝ)), (20, 0), (20, 0)] := by
  have e1 : edist ((0 : ℝ), (0 : ℝ)) (20, 0) = 20 :=
    edist_eval 0 0 20 0 20 (by norm_num) (by norm_num)
  have e2 : edist ((20 : ℝ), (0 : ℝ)) (20, 0) = 0 :=
    edist_eval 20 0 20 0 0 (by norm_num) (by norm_num)
  have hrun : (runMoves InputState.new
      [((0 : ℝ), (0 : ℝ)), (20, 0), (20, 0)]).total_movement = 40 := by
    rw [runMoves, run_example3]
  have hpath : pathLength [((0 : ℝ), (0 : ℝ)), (20, 0), (20, 0)] = 20 := by
    simp only [pathLength]
    rw [e1, e2]
    norm_num
  rw [hrun, hpath]
  norm_num

/-- C3 amended: `total_movement` equals the sum of pairwise Euclidean
distances between consecutive points provided dismissal has not fired; it
is monotonically non-decreasing under every run; after (0,0), (5,0),
(11,0) it equals 11, the third call returns true and the first two false;
after (0,0), (3,4) it equals 5 with dismissal still false. -/
theorem accumulated_distance_amended :
    (∀ ps : List (ℝ × ℝ),
      (runMoves InputState.new ps).should_close = false →
      (runMoves InputState.new ps).total_movement = pathLength ps) ∧
    (∀ (s : InputState) (ps : List (ℝ × ℝ)),
      s.total_movement ≤ (runMoves s ps).total_movement) ∧
    runMovesOut InputState.new [((0 : ℝ), (0 : ℝ)), (5, 0), (11, 0)] =
      (InputState.mk true (some (5, 0)) 11, [false, false, true]) ∧
    runMovesOut InputState.new [((0 : ℝ), (0 : ℝ)), (3, 4)] =
      (InputState.mk false (some (3, 4)) 5, [false, false]) := by
  refine ⟨?_, fun s ps => runMoves_total_mono ps s, run_example1, run_example2⟩
  intro ps hnc
  cases ps with
  | nil => simp [runMoves, runMovesOut, pathLength, InputState.new]; norm_num
  | cons p qs =>
      have h1 : InputState.new.handle_mouse_movement p.1 p.2 =
          ({ InputState.new with last_mouse_pos := some (p.1, p.2) },
            false) :=
        hmm_none InputState.new p.1 p.2 rfl
      have hrm : runMoves InputState.new (p :: qs) =
          runMoves { InputState.new with
            last_mouse_pos := some (p.1, p.2) } qs := by
        simp [runMoves, runMovesOut, h1]
      rw [hrm] at hnc ⊢
      have := runMoves_pathLength qs
        { InputState.new with last_mouse_pos := some (p.1, p.2) }
        (p.1, p.2) rfl hnc
      rw [this]
      simp only [Prod.mk.eta, InputState.new]
      norm_num

/-- Witness for C3 amended, at the run (0,0) → (3,4). -/
theorem accumulated_distance_amended_witness :
    (runMoves InputState.new [((0 : ℝ), (0 : ℝ)), (3, 4)]).total_movement =
      pathLength [((0 : ℝ), (0 : ℝ)), (3, 4)] ∧
    (InputState.mk false (some ((0 : ℝ), (0 : ℝ))) 0).total_movement ≤
      (runMoves (InputState.mk false (some ((0 : ℝ), (0 : ℝ))) 0)
        [((3 : ℝ), (4 : ℝ))]).total_movement :=
  ⟨accumulated_distance_amended.1 [((0 : ℝ), (0 : ℝ)), (3, 4)]
      (by rw [runMoves, run_example2]),
   accumulated_distance_amended.2.1
      (InputState.mk false (some ((0 : ℝ), (0 : ℝ))) 0) [((3 : ℝ), (4 : ℝ))]⟩

/-- A mouse call that returns true implies a prior position was stored,
the threshold was crossed, and the position was not updated. -/
theorem hmm_cross_facts (s : InputState) (x y : ℝ)
    (h : (s.handle_mouse_movement x y).2 = true) :
    ∃ p, s.last_mouse_pos = some p ∧
      (s.handle_mouse_movement x y).1 =
        { s with
            should_close := true,
            total_movement := s.total_movement + edist p (x, y) } ∧
      s.total_movement + edist p (x, y) > MOUSE_THRESHOLD := by
  rcases hp : s.last_mouse_pos with _ | ⟨lx, ly⟩
  · rw [hmm_none s x y hp] at h
    exact absurd h (by simp)
  · by_cases hc : s.total_movement + edist (lx, ly) (x, y) > MOUSE_THRESHOLD
    · refine ⟨(lx, ly), rfl, ?_, hc⟩
      rw [hmm_cross s x y lx ly hp hc, hp]
    · rw [hmm_no_cross s x y lx ly hp hc] at h
      exact absurd h (by simp)

/-- From a dismissed state whose total already exceeds the threshold,
every further mouse call returns true, adds the distance from the stale
stored position, and leaves the stored position unchanged. -/
theorem runMovesOut_stale (ps : List (ℝ × ℝ)) :
    ∀ (t : InputState) (p : ℝ × ℝ), t.last_mouse_pos = some p →
      t.should_close = true → t.total_movement > MOUSE_THRESHOLD →
      runMovesOut t ps =
        ({ t with total_movement := t.total_movement + staleSum p ps },
          List.replicate ps.length true) := by
  induction ps with
  | nil =>
      intro t p hp hs ht
      obtain ⟨sc, lmp, tm⟩ := t
      simp [runMovesOut, staleSum]
  | cons q qs ih =>
      intro t p hp hs ht
      have hd := edist_nonneg p (q.1, q.2)
      have hc : t.total_movement + edist p (q.1, q.2) > MOUSE_THRESHOLD := by
        linarith
      have hstep := hmm_cross t q.1 q.2 p.1 p.2 (by simp [hp])
        (by simpa using hc)
      obtain ⟨sc, lmp, tm⟩ := t
      simp only at hs hp
      subst hs
      have hih := ih
        (InputState.mk true lmp (tm + edist (p.1, p.2) (q.1, q.2))) p
        (by simpa using hp)
        rfl
        (by simp only []; have := edist_nonneg (p.1, p.2) (q.1, q.2); dsimp at ht ⊢; linarith)
      rw [runMovesOut_cons_of _ _ _ _ _ hstep, hih]
      simp only [staleSum_cons, List.length_cons, List.replicate_succ,
        Prod.mk.eta]
      rw [add_assoc]

/-- C10: once `should_close` is set by a pointer-threshold crossing, every
subsequent `handle_mouse_movement` call returns true, accumulates the
distance from the stale stored position (the one recorded before
dismissal), and leaves `last_mouse_pos` unchanged. -/
theorem moves_after_pointer_dismissal (s : InputState) (x0 y0 : ℝ)
    (h : (s.handle_mouse_movement x0 y0).2 = true) (ps : List (ℝ × ℝ)) :
    ∃ p, (s.handle_mouse_movement x0 y0).1.last_mouse_pos = some p ∧
      runMovesOut (s.handle_mouse_movement x0 y0).1 ps =
        ({ (s.handle_mouse_movement x0 y0).1 with
            total_movement :=
              (s.handle_mouse_movement x0 y0).1.total_movement +
                staleSum p ps },
          List.replicate ps.length true) := by
  obtain ⟨p, hp, hstate, hgt⟩ := hmm_cross_facts s x0 y0 h
  refine ⟨p, ?_, ?_⟩
  · rw [hstate]
    exact hp
  · exact runMovesOut_stale ps _ p (by rw [hstate]; exact hp)
      (by rw [hstate]) (by rw [hstate]; exact hgt)

/-- Witness for C10: crossing at (0,0) → (11,0), then one more move. -/
theorem moves_after_pointer_dismissal_witness :
    ∃ p, ((InputState.mk false (some ((0 : ℝ), (0 : ℝ)))
        0).handle_mouse_movement 11 0).1.last_mouse_pos = some p ∧
      runMovesOut ((InputState.mk false (some ((0 : ℝ), (0 : ℝ)))
          0).handle_mouse_movement 11 0).1 [(12, 0)] =
        ({ ((InputState.mk false (some ((0 : ℝ), (0 : ℝ)))
              0).handle_mouse_movement 11 0).1 with
            total_movement :=
              ((InputState.mk false (some ((0 : ℝ), (0 : ℝ)))
                  0).handle_mouse_movement 11 0).1.total_movement +
                staleSum p [(12, 0)] },
          List.replicate 1 true) :=
  moves_after_pointer_dismissal
    (InputState.mk false (some ((0 : ℝ), (0 : ℝ))) 0) 11 0
    (by
      have e1 : edist ((0 : ℝ), (0 : ℝ)) (11, 0) = 11 :=
        edist_eval 0 0 11 0 11 (by norm_num) (by norm_num)
      rw [hmm_cross _ 11 0 0 0 rfl (by rw [e1]; norm_num [MOUSE_THRESHOLD])])
    [(12, 0)]

/-- C7: `resolve_content_url` returns inputs starting with http://,
https:// or file:// unchanged; any other input errors when the path does
not exist or cannot be canonicalized, and otherwise resolves to the
canonicalized path behind a file:// scheme. -/
theorem resolve_content_url_contract (pe : String → Bool)
    (canon : String → Option String) (c : String) :
    ((starts_with c "http://" || starts_with c "https://") = true →
      resolve_content_url pe canon c = Except.ok c) ∧
    (starts_with c "file://" = true →
      resolve_content_url pe canon c = Except.ok c) ∧
    ((starts_with c "http://" || starts_with c "https://" ||
        starts_with c "file://") = false →
      (pe c = false →
        resolve_content_url pe canon c =
          Except.error ("File does not exist: " ++ c)) ∧
      (pe c = true → canon c = none →
        resolve_content_url pe canon c =
          Except.error ("Failed to resolve file path: " ++ c)) ∧
      (∀ p, pe c = true → canon c = some p →
        resolve_content_url pe canon c =
          Except.ok ("file://" ++ p))) := by
  refine ⟨fun h => ?_, fun h => ?_, fun h => ?_⟩
  · simp [resolve_content_url, h]
  · by_cases h1 : (starts_with c "http://" || starts_with c "https://") = true
    · simp [resolve_content_url, h1]
    · rw [Bool.not_eq_true] at h1
      simp [resolve_content_url, h1, h]
  · rw [Bool.or_eq_false_iff] at h
    obtain ⟨h1, h2⟩ := h
    refine ⟨fun hpe => ?_, fun hpe hc => ?_, fun p hpe hc => ?_⟩
    · simp [resolve_content_url, h1, h2, hpe]
    · simp [resolve_content_url, h1, h2, hpe, hc]
    · simp [resolve_content_url, h1, h2, hpe, hc]

/-- Witness for C7 on a concrete two-file filesystem. -/
theorem resolve_content_url_contract_witness :
    resolve_content_url (fun s => s == "./local.html")
      (fun s => if s == "./local.html" then some "/home/user/local.html"
        else none) "https://example.com/page" =
      Except.ok "https://example.com/page" ∧
    resolve_content_url (fun s => s == "./local.html")
      (fun s => if s == "./local.html" then some "/home/user/local.html"
        else none) "/nonexistent/path" =
      Except.error ("File does not exist: " ++ "/nonexistent/path") ∧
    resolve_content_url (fun s => s == "./local.html")
      (fun s => if s == "./local.html" then some "/home/user/local.html"
        else none) "./local.html" =
      Except.ok ("file://" ++ "/home/user/local.html") :=
  ⟨(resolve_content_url_contract _ _ "https://example.com/page").1
      (by decide),
   ((resolve_content_url_contract _ _ "/nonexistent/path").2.2
      (by decide)).1 (by decide),
   (((resolve_content_url_contract _ _ "./local.html").2.2
      (by decide)).2.2) "/home/user/local.html" (by decide) (by decide)⟩

theorem opacity_step_eq : opacity_step = 2 / 25 := by
  norm_num [opacity_step, fade_duration_ms, frame_time_ms]

theorem fade_tick_no_clamp (o : ℚ) (h : o + opacity_step < 1) :
    fade_tick o = (o + opacity_step, true) := by
  simp only [fade_tick]
  rw [if_neg (not_le.2 h)]

theorem fade_tick_clamp (o : ℚ) (h : 1 ≤ o + opacity_step) :
    fade_tick o = (1, false) := by
  simp only [fade_tick]
  rw [if_pos h]

theorem fade_tick_le_one (o : ℚ) : (fade_tick o).1 ≤ 1 := by
  by_cases h : 1 ≤ o + opacity_step
  · rw [fade_tick_clamp o h]
  · rw [fade_tick_no_clamp o (not_le.1 h)]
    exact le_of_lt (not_le.1 h)

/-- Closed form for the fade opacity while it is still ramping. -/
theorem fade_opacity_eq : ∀ n : ℕ, n ≤ 12 → fade_opacity n = 2 * n / 25 := by
  intro n
  induction n with
  | zero => intro _; simp [fade_opacity]
  | succ n ih =>
      intro hn
      have hn11 : n ≤ 11 := by omega
      have h11 : (n : ℚ) ≤ 11 := by exact_mod_cast hn11
      have hv := ih (by omega)
      simp only [fade_opacity]
      rw [hv, fade_tick_no_clamp _ (by rw [opacity_step_eq]; linarith)]
      rw [opacity_step_eq]
      push_cast
      ring

theorem fade_opacity_twelve : fade_opacity 12 = 24 / 25 := by
  rw [fade_opacity_eq 12 le_rfl]
  norm_num

theorem fade_opacity_thirteen : fade_opacity 13 = 1 := by
  have h : fade_opacity 13 = (fade_tick (fade_opacity 12)).1 := rfl
  rw [h, fade_opacity_twelve,
    fade_tick_clamp _ (by rw [opacity_step_eq]; norm_num)]

/-- C8: the fade stepper starts at 0 with step 1/(200/16) = 0.08,
strictly increases each tick, reaches opacity 1.0 on tick 13, never sets
an opacity above 1.0, keeps rescheduling before the crossing tick, and
stops rescheduling on the crossing tick. -/
theorem fade_contract :
    opacity_step = 1 / (200 / 16) ∧
    opacity_step = 2 / 25 ∧
    (∀ n : ℕ, n < 13 → fade_opacity n < fade_opacity (n + 1)) ∧
    fade_opacity 13 = 1 ∧
    (∀ n : ℕ, fade_opacity n ≤ 1) ∧
    (∀ n : ℕ, n < 12 → (fade_tick (fade_opacity n)).2 = true) ∧
    (fade_tick (fade_opacity 12)).2 = false := by
  refine ⟨rfl, opacity_step_eq, ?_, fade_opacity_thirteen, ?_, ?_, ?_⟩
  · intro n hn
    by_cases h12 : n = 12
    · subst h12
      rw [fade_opacity_twelve, fade_opacity_thirteen]
      norm_num
    · have hn11 : n ≤ 11 := by omega
      have h11 : (n : ℚ) ≤ 11 := by exact_mod_cast hn11
      rw [fade_opacity_eq n (by omega), fade_opacity_eq (n + 1) (by omega)]
      push_cast
      linarith
  · intro n
    cases n with
    | zero => norm_num [fade_opacity]
    | succ n =>
        simp only [fade_opacity]
        exact fade_tick_le_one _
  · intro n hn
    have hn11 : n ≤ 11 := by omega
    have h11 : (n : ℚ) ≤ 11 := by exact_mod_cast hn11
    rw [fade_opacity_eq n (by omega),
      fade_tick_no_clamp _ (by rw [opacity_step_eq]; linarith)]
  · rw [fade_opacity_twelve,
      fade_tick_clamp _ (by rw [opacity_step_eq]; norm_num)]

/-- Witness for C8 at concrete tick numbers. -/
theorem fade_contract_witness :
    fade_opacity 0 < fade_opacity 1 ∧
    fade_opacity 5 ≤ 1 ∧
    (fade_tick (fade_opacity 0)).2 = true :=
  ⟨fade_contract.2.2.1 0 (by norm_num),
   fade_contract.2.2.2.2.1 5,
   fade_contract.2.2.2.2.2.1 0 (by norm_num)⟩

/-- C5: on a watchdog tick with the tracker dismissed, the tick prints,
performs exactly one teardown (`close`, hence exactly one `app.quit`),
and returns `Break`, so however much fuel the timer has, only that one
tick runs; otherwise the tick re-presents and re-focuses exactly the
non-foreground windows and returns `Continue`. -/
theorem watchdog_contract (st : InputState) (ws : List AppWindow) :
    (st.should_close = true →
      watchdog_tick st ws =
        (GtkCall.printClosing :: (close ws).1, ControlFlow.Break) ∧
      (watchdog_tick st ws).1.count GtkCall.appQuit = 1 ∧
      (∀ fuel : ℕ,
        watchdog_run st ws (fuel + 1) = [(watchdog_tick st ws).1])) ∧
    (st.should_close = false →
      watchdog_tick st ws =
        ((ws.filter fun w => !w.is_active).flatMap
          (fun w => [GtkCall.present w.id, GtkCall.grabFocus w.id]),
          ControlFlow.Continue) ∧
      ∀ w ∈ ws, w.is_active = false →
        GtkCall.present w.id ∈ (watchdog_tick st ws).1 ∧
        GtkCall.grabFocus w.id ∈ (watchdog_tick st ws).1) := by
  constructor
  · intro h
    have ht : watchdog_tick st ws =
        (GtkCall.printClosing :: (close ws).1, ControlFlow.Break) := by
      simp [watchdog_tick, h]
    refine ⟨ht, ?_, fun fuel => ?_⟩
    · rw [ht]
      simp only [close]
      rw [List.count_cons]
      rw [List.count_append]
      simp [List.count_eq_zero, List.count_singleton]
    · simp only [watchdog_run, ht]
  · intro h
    have ht : watchdog_tick st ws =
        ((ws.filter fun w => !w.is_active).flatMap
          (fun w => [GtkCall.present w.id, GtkCall.grabFocus w.id]),
          ControlFlow.Continue) := by
      simp [watchdog_tick, h]
    refine ⟨ht, fun w hw hact => ?_⟩
    rw [ht]
    constructor
    · exact List.mem_flatMap.2
        ⟨w, List.mem_filter.2 ⟨hw, by simp [hact]⟩, by simp⟩
    · exact List.mem_flatMap.2
        ⟨w, List.mem_filter.2 ⟨hw, by simp [hact]⟩, by simp⟩

/-- Witness for C5: a dismissed tick over one window, a five-fuel run,
and a non-dismissed tick over one backgrounded window. -/
theorem watchdog_contract_witness :
    watchdog_tick (InputState.mk true none 0) [AppWindow.mk 0 true] =
      (GtkCall.printClosing :: (close [AppWindow.mk 0 true]).1,
        ControlFlow.Break) ∧
    watchdog_run (InputState.mk true none 0) [AppWindow.mk 0 true] 5 =
      [(watchdog_tick (InputState.mk true none 0) [AppWindow.mk 0 true]).1] ∧
    watchdog_tick (InputState.mk false none 0) [AppWindow.mk 1 false] =
      (([AppWindow.mk 1 false].filter fun w => !w.is_active).flatMap
        (fun w => [GtkCall.present w.id, GtkCall.grabFocus w.id]),
        ControlFlow.Continue) :=
  ⟨((watchdog_contract (InputState.mk true none 0)
      [AppWindow.mk 0 true]).1 rfl).1,
   ((watchdog_contract (InputState.mk true none 0)
      [AppWindow.mk 0 true]).1 rfl).2.2 4,
   ((watchdog_contract (InputState.mk false none 0)
      [AppWindow.mk 1 false]).2 rfl).1⟩

/-- C6 counterexample: `close` never clears the window list — with one
window in it, the list left behind is not empty. -/
theorem close_counterexample :
    (close [AppWindow.mk 0 true]).2 ≠ ([] : List AppWindow) := by
  decide

/-- C6 amended: `close` closes every window in order and signals
application exit exactly once, but leaves the window list as it was
(the vector is not cleared); on an empty list it closes nothing and
still quits exactly once. -/
theorem close_contract (ws : List AppWindow) :
    (close ws).1 =
      (ws.map fun w => GtkCall.closeWindow w.id) ++ [GtkCall.appQuit] ∧
    (close ws).2 = ws ∧
    (close ws).1.count GtkCall.appQuit = 1 ∧
    (close ([] : List AppWindow)).1 = [GtkCall.appQuit] := by
  refine ⟨rfl, rfl, ?_, rfl⟩
  simp only [close]
  rw [List.count_append]
  simp [List.count_eq_zero, List.count_singleton]

/-- C9: fleet activation creates exactly one window per monitor entry
that downcasts successfully, in enumeration order, and logs one line per
failed downcast while continuing with the remaining entries. -/
theorem activate_contract (items : List MonitorItem) :
    (activate items).1 = items.filterMap
      (fun i => match i with
        | MonitorItem.monitor id => some id
        | _ => none) ∧
    (activate items).2 = List.replicate
      (items.count MonitorItem.notMonitor)
      "Failed to downcast monitor object" := by
  induction items with
  | nil => exact ⟨rfl, rfl⟩
  | cons i rest ih =>
      cases i <;>
        simp [activate, List.filterMap_cons, List.count_cons, ih.1, ih.2,
          List.replicate_succ]

end Waysaver
